import Mathlib

/-!
Verification development for the concurrent book-author enrichment pipeline
in `mysite/search_engine/helps.py`.

The Python module is shallowly embedded as follows.

* A Python dict with string keys and string-like values is an association
  list `Dict`; `dget` models subscription lookup (`d[k]`, raising `KeyError`
  when the key is absent is modelled at each use site) and `dset` models
  subscription assignment (`d[k] = v`: replace an existing binding in place,
  otherwise append).
* A search-hit record (shaped `\x7b _source: \x7b id, summary, ... \x7d, ... \x7d` per
  the provider contract) is a structure `Rec` holding the `_source` sub-dict
  and the remaining top-level entries.
* Raised Python exceptions are the inductive `PyExc`.  The constructors keep
  exactly the data the code reads back (class identity for `except` clauses,
  message text, HTTP status / reason / headers for
  `aiohttp.ClientResponseError`, and the `id` / `error` / `__cause__` fields
  of the custom `FetchError`).  Fallible code returns `Except PyExc`.
* The aiohttp POST to the author endpoint is abstracted as a
  `transport : Dict → TransportResult` mapping the request payload to what
  the network did: a `ClientConnectorError`, some other raised exception, or
  a response with status / reason / headers / JSON body.
* `loop.run_in_executor(None, add_additional_data_to_record, ...)` submits
  the merge to a thread pool and discards the future, so the merge is
  modelled as a pending `MergeAction` carried next to the returned `Result`;
  whether the executor thread has run it by a given observation point is a
  free scheduling parameter (`applied` flags).  An exception raised inside
  the executor thread is swallowed with the discarded future.
* `asyncio.as_completed` hands futures back in a nondeterministic completion
  order, a permutation of the submitted tasks; theorems about the tally
  quantify over any such permutation.
* The bounded-concurrency behaviour of `asyncio.Semaphore(concur_req)` and
  the `with (yield from semaphore):` block around the single remote call is
  modelled separately as the transition system `SemStep` / `SemReachable`.
-/

namespace SearchEngineHelps

/-- A Python dict with string keys and string values, as an association list. -/
abbrev Dict := List (String × String)

/-- Dict lookup, `d[k]` returning `none` where Python would raise `KeyError`. -/
def dget (d : Dict) (k : String) : Option String :=
  match d with
  | [] => none
  | (k0, v) :: rest => if k0 = k then some v else dget rest k

/-- Dict assignment `d[k] = v`: replace the first binding of `k`, else append. -/
def dset (d : Dict) (k v : String) : Dict :=
  match d with
  | [] => [(k, v)]
  | (k0, v0) :: rest => if k0 = k then (k, v) :: rest else (k0, v0) :: dset rest k v

/-- A search-hit record: the `_source` sub-dict plus the other top-level keys. -/
structure Rec where
  source : Dict
  rest : Dict
deriving DecidableEq

/-- The observable shape of an exception object used as `__cause__`:
its `args` tuple (structured messages) and its class name. -/
structure PyCause where
  args : List String
  className : String
deriving DecidableEq

/-- The exceptions this module raises or catches.  `exception` is the builtin
`Exception(msg)`; `clientResponseError` is `aiohttp.ClientResponseError` built
with `code=`, `message=`, `headers=`; `httpNotFound` is `aiohttp.web.HTTPNotFound`;
`fetchError` is the custom `FetchError` with its `id`, `error` and `__cause__`
attributes; `attributeError` / `keyError` are the builtins. -/
inductive PyExc where
  | exception (msg : String)
  | clientResponseError (code : Nat) (message : String) (headers : Dict)
  | httpNotFound
  | fetchError (id : String) (error : String) (cause : Option PyCause)
  | attributeError (msg : String)
  | keyError (key : String)
deriving DecidableEq

/-- The Python class name of an exception value. -/
def PyExc.className : PyExc → String
  | .exception _ => "Exception"
  | .clientResponseError _ _ _ => "ClientResponseError"
  | .httpNotFound => "HTTPNotFound"
  | .fetchError _ _ _ => "FetchError"
  | .attributeError _ => "AttributeError"
  | .keyError _ => "KeyError"

/-- The `str(exc)` rendering used when an exception object is wrapped as
`Exception(exc)`. -/
def PyExc.toStr : PyExc → String
  | .exception m => m
  | .clientResponseError _ m _ => m
  | .httpNotFound => "Not Found"
  | .fetchError _ e _ => e
  | .attributeError m => m
  | .keyError k => k

/-- What the HTTP transport did for one POST: a connector-level failure
(`aiohttp.ClientConnectorError` with its `strerror`), some other raised
exception, or a delivered response. -/
inductive TransportResult where
  | connError (strerror : String)
  | otherError (e : PyExc)
  | response (status : Nat) (reason : String) (headers : Dict) (body : Dict)
deriving DecidableEq

/-- The `HTTPStatus` enum of the module: `ok`, `not_found`, `error`. -/
inductive HTTPStatus where
  | ok
  | not_found
  | error
deriving DecidableEq

/-- The `Result` namedtuple: `status` and `data` (the book record). -/
structure Result where
  status : HTTPStatus
  data : Rec
deriving DecidableEq

/-- A merge submitted to the executor by `run_in_executor(None,
add_additional_data_to_record, data, qry, book_details)`: the response body
and the query term to stamp onto the record. -/
structure MergeAction where
  data : Dict
  qry : String
deriving DecidableEq

/-- The per-`HTTPStatus` outcome counts kept in `collections.Counter()`. -/
structure Counter where
  ok : Nat
  not_found : Nat
  error : Nat
deriving DecidableEq

/-- The empty counter. -/
def Counter.start : Counter := ⟨0, 0, 0⟩

/-- The `counter[status] += 1` update. -/
def Counter.incr (c : Counter) : HTTPStatus → Counter
  | .ok => { c with ok := c.ok + 1 }
  | .not_found => { c with not_found := c.not_found + 1 }
  | .error => { c with error := c.error + 1 }

/-- Sum of the three counts of a tally. -/
def Counter.total (c : Counter) : Nat := c.ok + c.not_found + c.error

/-- The module-level default concurrency constant `DEFAULT_CONCUR_REQ = 5`. -/
def DEFAULT_CONCUR_REQ : Nat := 5

/-- The module-level concurrency upper bound `MAX_CONCUR_REQ = 1000`. -/
def MAX_CONCUR_REQ : Nat := 1000

/-- Embedding of `BookCoroutineService.call_service(base_url, data, method)`.
For `method == "POST"` it performs the POST: a `ClientConnectorError` is
caught and re-raised as `Exception("call author aws service: " + ce.strerror)`;
any other exception `e` from the POST is re-raised as `Exception(e)` (whose
message is `str(e)`); a delivered response with status other than 200 raises
`ClientResponseError(code=status, message=reason, headers=headers)` before any
body is read; a 200 response has its JSON body returned.  For any other
method the local `response` stays `None` and `response.status` raises
`AttributeError`. -/
def call_service (t : TransportResult) (method : String) : Except PyExc Dict :=
  if method = "POST" then
    match t with
    | .connError strerror =>
        .error (.exception ("call author aws service: " ++ strerror))
    | .otherError e => .error (.exception e.toStr)
    | .response status reason headers body =>
        if status ≠ 200 then .error (.clientResponseError status reason headers)
        else .ok body
  else
    .error (.attributeError "NoneType object has no attribute status")

/-- Embedding of `add_additional_data_to_record(data, qry, book_details)`:
`book_details[_source][author] = data[author]` then
`book_details[_source][query] = qry`.  A missing `author` key in `data`
raises `KeyError` before any mutation. -/
def add_additional_data_to_record (data : Dict) (qry : String) (book_details : Rec) :
    Except PyExc Rec :=
  match dget data "author" with
  | none => .error (.keyError "author")
  | some a =>
      .ok { book_details with
            source := dset (dset book_details.source "author" a) "query" qry }

/-- What the executor thread leaves behind when it eventually runs a submitted
merge: the merged record on success; on an exception inside the thread the
record is unchanged and the exception is swallowed with the discarded future. -/
def runMergeInExecutor (m : MergeAction) (r : Rec) : Rec :=
  match add_additional_data_to_record m.data m.qry r with
  | .ok r2 => r2
  | .error _ => r

/-- The state of a record at an observation point: its pending merge (if any)
has been run by the executor thread exactly when `applied` is true.  Nothing
in the code awaits the executor future, so both values of `applied` are
reachable schedules at the moment the batch run returns. -/
def postRunRec (r : Rec) (m : Option MergeAction) (applied : Bool) : Rec :=
  match m with
  | none => r
  | some ma => if applied then runMergeInExecutor ma r else r

/-- Embedding of `BookCoroutineService.retrieve_author_details(book_details,
qry, semaphore, verbose)`.  It reads `book_details[_source][id]` (a missing
key raises `KeyError` out of the coroutine), builds the payload
`\x7bbook_id: id\x7d`, and calls `call_service` under the semaphore.  An
`HTTPNotFound` from the call is caught and mapped to status `not_found`; any
other exception `exc` is caught and re-raised as `Exception(exc)`; on success
the merge is submitted to the executor (returned here as the pending
`MergeAction`, not yet applied to the record) and the status is `ok`.
Returns `Result(status, book_details)` paired with the pending merge. -/
def retrieve_author_details (transport : Dict → TransportResult) (book_details : Rec)
    (qry : String) (verbose : Nat) : Except PyExc (Result × Option MergeAction) :=
  match dget book_details.source "id" with
  | none => .error (.keyError "id")
  | some book_id =>
      match call_service (transport [("book_id", book_id)]) "POST" with
      | .ok data => .ok (⟨HTTPStatus.ok, book_details⟩, some ⟨data, qry⟩)
      | .error e =>
          match e with
          | .httpNotFound => .ok (⟨HTTPStatus.not_found, book_details⟩, none)
          | _ => .error (.exception e.toStr)

/-- The diagnostic extraction inside the `except FetchError` handler of
`schedule_services`: `error_msg = exc.__cause__.args[0]`, with only
`IndexError` caught and mapped to `exc.__cause__.__class__.__name__`.
When `__cause__` is `None`, the attribute access `.args` raises
`AttributeError`, which the handler does not catch. -/
def extract_error_msg (cause : Option PyCause) : Except PyExc String :=
  match cause with
  | none => .error (.attributeError "NoneType object has no attribute args")
  | some c =>
      match c.args with
      | [] => .ok c.className
      | a :: _ => .ok a

/-- The fan-in loop of `schedule_services`, consuming the futures in the
order `asyncio.as_completed` hands them back.  A future that raises a
`FetchError` runs the diagnostic extraction (whose own exception, if any,
propagates) and is tallied as `error`; a future that raises anything else
propagates out of the loop and terminates the batch; a future that returns a
`Result` is tallied under its status. -/
def schedule_loop : List (Except PyExc Result) → Counter → Except PyExc Counter
  | [], counter => .ok counter
  | fut :: rest, counter =>
      match fut with
      | .ok res => schedule_loop rest (counter.incr res.status)
      | .error e =>
          match e with
          | .fetchError _ _ cause =>
              match extract_error_msg cause with
              | .ok _ => schedule_loop rest (counter.incr HTTPStatus.error)
              | .error e2 => .error e2
          | _ => .error e

instance {ε α : Type} [DecidableEq ε] [DecidableEq α] : DecidableEq (Except ε α) := fun x y =>
  match x, y with
  | .ok a, .ok b => if h : a = b then .isTrue (by rw [h]) else .isFalse (by simp [h])
  | .error a, .error b => if h : a = b then .isTrue (by rw [h]) else .isFalse (by simp [h])
  | .ok _, .error _ => .isFalse (by simp)
  | .error _, .ok _ => .isFalse (by simp)

/-- The observable effects of one `schedule_services` call: the capacity the
semaphore was built with, whether the `if not verbose` branch wrapped the
iterator in a tqdm progress bar (`verbose` is passed an `int` at the only
call site, so truthiness is `verbose ≠ 0`), and the tally or the exception
that escaped the fan-in loop. -/
structure SchedRun where
  semCapacity : Nat
  progressBarUsed : Bool
  result : Except PyExc Counter
deriving DecidableEq

/-- Embedding of `BookCoroutineService.schedule_services(records_list, qry,
next_calling_service, verbose, concur_req)` run under one fixed completion
order (the submission order); theorems about the tally quantify over every
permutation of the task list via `schedule_loop`. -/
def schedule_services (records_list : List Rec) (qry : String)
    (next_calling_service : Rec → String → Nat → Except PyExc Result)
    (verbose : Nat) (concur_req : Nat) : SchedRun :=
  { semCapacity := concur_req,
    progressBarUsed := decide (verbose = 0),
    result :=
      schedule_loop (records_list.map (fun item => next_calling_service item qry verbose))
        Counter.start }

/-- The value of one scheduled task as `schedule_loop` sees it: the
`Result` of `retrieve_author_details`, its pending merge dropped (the future
holds only the returned value). -/
def task_of_record (transport : Dict → TransportResult) (item : Rec) (qry : String)
    (verbose : Nat) : Except PyExc Result :=
  (retrieve_author_details transport item qry verbose).map Prod.fst

/-- Embedding of `BookCoroutineService.call_author_many(records_list, qry,
verbose, concur_req)`: runs `schedule_services` with
`retrieve_author_details` as the task coroutine on a fresh event loop.  The
returned tally is discarded by the Python function; the embedding exposes
the whole `SchedRun` so that its parts can be inspected. -/
def call_author_many (transport : Dict → TransportResult) (records_list : List Rec)
    (qry : String) (verbose : Nat) (concur_req : Nat) : SchedRun :=
  schedule_services records_list qry (task_of_record transport) verbose concur_req

/-- The state of one record at the moment a batch over its query term has
completed: if its task succeeded, its pending merge has run exactly when the
scheduling flag `applied` says so; a record whose task raised was never
touched. -/
def recPostRun (transport : Dict → TransportResult) (qry : String) (verbose : Nat)
    (applied : Bool) (r : Rec) : Rec :=
  match retrieve_author_details transport r qry verbose with
  | .ok (_, m) => postRunRec r m applied
  | .error _ => r

/-- The record list of one query term as observed after its batch, with the
executor schedule given per record index. -/
def batchPostRun (transport : Dict → TransportResult) (qry : String) (verbose : Nat)
    (applied : Nat → Bool) : Nat → List Rec → List Rec
  | _, [] => []
  | i, r :: rs =>
      recPostRun transport qry verbose (applied i) r ::
        batchPostRun transport qry verbose applied (i + 1) rs

/-- Embedding of `ElasticSearchBookService.run_query_list()`.  For each query
term in order it obtains the hit list from the search provider (modelled as
an opaque `provider` function; the `[0:size]` slice is the `take size`),
runs `call_author_many(list_doc, qry, DEFAULT_CONCUR_REQ, MAX_CONCUR_REQ)` —
note the positional binding: `DEFAULT_CONCUR_REQ` lands on `verbose` and
`MAX_CONCUR_REQ` on `concur_req` — and appends the same (possibly enriched)
hit list to the output.  An exception escaping a batch propagates out of
`loop.run_until_complete` and aborts the whole run.  `applied` gives, per
query term and record index, whether the executor had run the pending merge
by the time the function returns. -/
def run_query_list (provider : String → List Rec) (transport : Dict → TransportResult)
    (applied : String → Nat → Bool) (query_list : List String) (size : Nat) :
    Except PyExc (List (List Rec)) :=
  match query_list with
  | [] => .ok []
  | qry :: restQueries =>
      let list_doc := (provider qry).take size
      match (call_author_many transport list_doc qry DEFAULT_CONCUR_REQ MAX_CONCUR_REQ).result with
      | .error e => .error e
      | .ok _ =>
          match run_query_list provider transport applied restQueries size with
          | .error e => .error e
          | .ok result =>
              .ok (batchPostRun transport qry DEFAULT_CONCUR_REQ (applied qry) 0 list_doc :: result)

/-! Transition-system model of the bounded-concurrency slot discipline.

`retrieve_author_details` wraps its single remote call as
`with (yield from semaphore): data = yield from self.call_service(...)`, on a
semaphore built once per batch as `asyncio.Semaphore(concur_req)` in
`schedule_services`.  Each task acquires one slot (suspending until one is
free), holds it only while its one `call_service` invocation is in flight,
and the `with` block releases the slot exactly once on every exit path:
normal return, the `web.HTTPNotFound` raised out of the block, or any other
exception.  The interleaving of a batch is modelled as a state machine over
the per-task phases, with acquire and release counters recording the slot
discipline. -/

/-- The exit paths out of the `with` block around the remote call: normal
completion, an `HTTPNotFound` propagating out, or any other exception. -/
inductive TaskExit where
  | normal
  | excNotFound
  | excOther
deriving DecidableEq

/-- The phase of one record task: not yet holding a slot, holding a slot with
its remote call in flight, or finished through one of the exit paths. -/
inductive Phase where
  | idle
  | inCall
  | done (exit : TaskExit)
deriving DecidableEq

/-- The bookkeeping for one task: its phase plus how often it has acquired
and released a semaphore slot. -/
structure TaskSt where
  phase : Phase
  acquires : Nat
  releases : Nat
deriving DecidableEq

/-- A task before its first step. -/
def TaskSt.start : TaskSt := ⟨Phase.idle, 0, 0⟩

/-- A batch in flight: the semaphore capacity and the per-task states. -/
structure SemSys where
  capacity : Nat
  tasks : List TaskSt
deriving DecidableEq

/-- The number of remote calls currently in flight: tasks holding a slot. -/
def inFlight (s : SemSys) : Nat :=
  s.tasks.countP (fun t => decide (t.phase = Phase.inCall))

/-- One interleaving step of a batch.  `acquire` fires only when a slot is
free (`inFlight s < s.capacity`, the semaphore guard) and moves an idle task
into its remote call; `release` ends a call through some exit path, giving
the slot back — the `with` block releases on every exit path, so `release`
is enabled for every `TaskExit` and is the only way out of `inCall`. -/
inductive SemStep : SemSys → SemSys → Prop where
  | acquire (s : SemSys) (i : Nat) (h : i < s.tasks.length)
      (hidle : (s.tasks.get ⟨i, h⟩).phase = Phase.idle)
      (hcap : inFlight s < s.capacity) :
      SemStep s ⟨s.capacity,
        s.tasks.set i ⟨Phase.inCall, (s.tasks.get ⟨i, h⟩).acquires + 1,
          (s.tasks.get ⟨i, h⟩).releases⟩⟩
  | release (s : SemSys) (i : Nat) (h : i < s.tasks.length) (ex : TaskExit)
      (hcall : (s.tasks.get ⟨i, h⟩).phase = Phase.inCall) :
      SemStep s ⟨s.capacity,
        s.tasks.set i ⟨Phase.done ex, (s.tasks.get ⟨i, h⟩).acquires,
          (s.tasks.get ⟨i, h⟩).releases + 1⟩⟩

/-- The states a batch of `n` record tasks under capacity `cap` can reach:
all tasks start idle with zero acquire and release counts. -/
inductive SemReachable (cap n : Nat) : SemSys → Prop where
  | start : SemReachable cap n ⟨cap, List.replicate n TaskSt.start⟩
  | step {s s2 : SemSys} : SemReachable cap n s → SemStep s s2 → SemReachable cap n s2

/-- The slot discipline of one task: no slot activity before the call, the
slot acquired exactly once and not yet released while the call is in flight,
and — on every exit path — released exactly once afterwards. -/
def TaskInv (t : TaskSt) : Prop :=
  (t.phase = Phase.idle → t.acquires = 0 ∧ t.releases = 0) ∧
  (t.phase = Phase.inCall → t.acquires = 1 ∧ t.releases = 0) ∧
  (∀ ex, t.phase = Phase.done ex → t.acquires = 1 ∧ t.releases = 1)

/-! Concrete inputs used by witnesses and counterexamples. -/

/-- A provider-shaped record with id 1. -/
def demoRec : Rec := ⟨[("id", "1"), ("summary", "a tale of mystery")], [("_score", "3")]⟩

/-- A provider-shaped record with id 2. -/
def demoRec2 : Rec := ⟨[("id", "2"), ("summary", "another mystery")], []⟩

/-- A provider-shaped record with id 3. -/
def demoRec3 : Rec := ⟨[("id", "3"), ("summary", "a romance")], []⟩

/-- A provider-shaped record with id 4. -/
def demoRec4 : Rec := ⟨[("id", "4"), ("summary", "second romance")], []⟩

/-- A transport that always delivers a 200 response whose body carries an
author field. -/
def okTransport : Dict → TransportResult :=
  fun _ => TransportResult.response 200 "OK" [] [("author", "AuthorA")]

/-- A transport that raises a `ClientConnectorError` for every call. -/
def connFailTransport : Dict → TransportResult :=
  fun _ => TransportResult.connError "Connection refused"

/-- A search provider returning two records for each of two query terms. -/
def demoProvider : String → List Rec :=
  fun q => if q = "mystery" then [demoRec, demoRec2] else [demoRec3, demoRec4]

/-- The merge that `okTransport` leads `retrieve_author_details` to submit
for the query term mystery. -/
def demoMerge : MergeAction := ⟨[("author", "AuthorA")], "mystery"⟩

/-- The output of `run_query_list` on `demoProvider` and `okTransport` over
the two demo query terms, with every pending merge applied. -/
def demoOut : List (List Rec) :=
  (["mystery", "romance"]).map (fun qry =>
    batchPostRun okTransport qry DEFAULT_CONCUR_REQ (fun _ => true) 0
      ((demoProvider qry).take 2))

/-! Formal statements of the claims under test that turn out to fail on the
code; each is refuted by a counterexample theorem below. -/

/-- Claim C3 as stated: for a record carrying neither field beforehand, after
the batch — at any reachable executor schedule `applied` — the author and
query fields are set if and only if the outcome is `ok` (so in particular the
merge happens before the record is reported `ok`). -/
def C3_claim : Prop :=
  ∀ (transport : Dict → TransportResult) (r : Rec) (qry : String) (verbose : Nat)
    (applied : Bool) (res : Result) (m : Option MergeAction),
    retrieve_author_details transport r qry verbose = .ok (res, m) →
    dget r.source "author" = none →
    dget r.source "query" = none →
    (res.status = HTTPStatus.ok ↔
      (dget (postRunRec r m applied).source "author").isSome = true ∧
      (dget (postRunRec r m applied).source "query").isSome = true)

/-- Claim C5 as stated: a transport-level connection failure makes the call
fail with a ConnectionError-classified exception. -/
def C5_claim : Prop :=
  ∀ strerror : String, ∃ e : PyExc,
    call_service (TransportResult.connError strerror) "POST" = .error e ∧
    e.className = "ConnectionError"

/-- Claim C7 as stated: the diagnostic extraction never throws, for every
shape of the cause — including an absent cause — and yields the first
structured message when present, else the kind name of the cause. -/
def C7_claim : Prop :=
  ∀ cause : Option PyCause,
    (∃ s, extract_error_msg cause = Except.ok s) ∧
    ∀ c, cause = some c →
      extract_error_msg cause
        = .ok (match c.args with | [] => c.className | a :: _ => a)

/-! Helper lemmas. -/

theorem dget_dset_self (d : Dict) (k v : String) : dget (dset d k v) k = some v := by
  induction d with
  | nil => simp [dset, dget]
  | cons p rest ih =>
    obtain ⟨k0, v0⟩ := p
    by_cases hk : k0 = k
    · simp [dset, hk, dget]
    · simp [dset, hk, dget, ih]

theorem dget_dset_other (d : Dict) (k v k2 : String) (hne : k2 ≠ k) :
    dget (dset d k v) k2 = dget d k2 := by
  have hne2 : k ≠ k2 := fun e => hne e.symm
  induction d with
  | nil => simp [dset, dget, hne2]
  | cons p rest ih =>
    obtain ⟨k0, v0⟩ := p
    by_cases hk : k0 = k
    · subst hk
      simp [dset, dget, hne2]
    · simp [dset, hk, dget, ih]

theorem Counter.total_incr (c : Counter) (st : HTTPStatus) :
    (c.incr st).total = c.total + 1 := by
  cases st <;> simp [Counter.incr, Counter.total] <;> omega

theorem schedule_loop_ok_total (l : List (Except PyExc Result)) (c tally : Counter)
    (h : schedule_loop l c = .ok tally) : tally.total = c.total + l.length := by
  induction l generalizing c with
  | nil =>
    simp [schedule_loop] at h
    subst h
    simp
  | cons fut rest ih =>
    match fut with
    | .ok res =>
      simp only [schedule_loop] at h
      have hrec := ih (c.incr res.status) h
      simp only [List.length_cons]
      rw [hrec, Counter.total_incr]
      omega
    | .error e =>
      cases e with
      | fetchError id err cause =>
        cases cause with
        | none => simp [schedule_loop, extract_error_msg] at h
        | some c2 =>
          obtain ⟨args, cn⟩ := c2
          cases args with
          | nil =>
            simp only [schedule_loop, extract_error_msg] at h
            have hrec := ih (c.incr HTTPStatus.error) h
            simp only [List.length_cons]
            rw [hrec, Counter.total_incr]
            omega
          | cons a as =>
            simp only [schedule_loop, extract_error_msg] at h
            have hrec := ih (c.incr HTTPStatus.error) h
            simp only [List.length_cons]
            rw [hrec, Counter.total_incr]
            omega
      | exception m => simp [schedule_loop] at h
      | clientResponseError code msg hdrs => simp [schedule_loop] at h
      | httpNotFound => simp [schedule_loop] at h
      | attributeError m => simp [schedule_loop] at h
      | keyError kk => simp [schedule_loop] at h

theorem taskInv_start : TaskInv TaskSt.start := by
  refine ⟨fun _ => ⟨rfl, rfl⟩, fun hc => ?_, fun ex hc => ?_⟩ <;>
    simp [TaskSt.start] at hc

theorem sem_reachable_invariant (cap n : Nat) (s : SemSys) (hreach : SemReachable cap n s) :
    s.capacity = cap ∧ inFlight s ≤ cap ∧ ∀ t ∈ s.tasks, TaskInv t := by
  induction hreach with
  | start =>
    refine ⟨rfl, ?_, ?_⟩
    · simp [inFlight, List.countP_replicate, TaskSt.start]
    · intro t ht
      rw [List.eq_of_mem_replicate ht]
      exact taskInv_start
  | @step s s2 hr hstep ih =>
    obtain ⟨hcapEq, hfl, hinv⟩ := ih
    cases hstep with
    | acquire i hlt hidle hguard =>
      have hold := hinv _ (List.get_mem s.tasks i hlt)
      have holdCnt := hold.1 hidle
      constructor
      · exact hcapEq
      constructor
      · have hcnt := List.countP_set (fun t => decide (t.phase = Phase.inCall)) s.tasks i
          ⟨Phase.inCall, (s.tasks.get ⟨i, hlt⟩).acquires + 1, (s.tasks.get ⟨i, hlt⟩).releases⟩ hlt
        have hgetEq : s.tasks[i] = s.tasks.get ⟨i, hlt⟩ := rfl
        rw [hgetEq, hidle] at hcnt
        simp at hcnt
        simp only [inFlight] at hfl hguard ⊢
        rw [← hgetEq]
        rw [hcnt]
        subst hcapEq
        omega
      · intro t ht
        rcases List.mem_or_eq_of_mem_set ht with hmem | rfl
        · exact hinv t hmem
        · refine ⟨fun hc => ?_, fun _ => ?_, fun ex hc => ?_⟩
          · simp at hc
          · constructor
            · rw [holdCnt.1]
            · exact holdCnt.2
          · simp at hc
    | release i hlt ex hcall =>
      have hold := hinv _ (List.get_mem s.tasks i hlt)
      have holdCnt := hold.2.1 hcall
      constructor
      · exact hcapEq
      constructor
      · have hcnt := List.countP_set (fun t => decide (t.phase = Phase.inCall)) s.tasks i
          ⟨Phase.done ex, (s.tasks.get ⟨i, hlt⟩).acquires, (s.tasks.get ⟨i, hlt⟩).releases + 1⟩ hlt
        have hgetEq : s.tasks[i] = s.tasks.get ⟨i, hlt⟩ := rfl
        rw [hgetEq, hcall] at hcnt
        simp at hcnt
        simp only [inFlight] at hfl ⊢
        rw [← hgetEq]
        rw [hcnt]
        subst hcapEq
        omega
      · intro t ht
        rcases List.mem_or_eq_of_mem_set ht with hmem | rfl
        · exact hinv t hmem
        · refine ⟨fun hc => ?_, fun hc => ?_, fun ex2 hc => ?_⟩
          · simp at hc
          · simp at hc
          · constructor
            · exact holdCnt.1
            · rw [holdCnt.2]

/-! Claim theorems. -/

/-- C1: the claim says every per-record failure is converted into a tallied
outcome and a batch of all-connection-failures returns the tally
(0, 0, N).  On the code this fails: `retrieve_author_details` re-raises a
plain `Exception`, which the `except FetchError` clause of
`schedule_services` does not catch (`FetchError` is never raised anywhere),
so for every non-empty record list under an always-connection-failing
transport the batch terminates with a propagated exception and no tally is
ever returned. -/
theorem C1_connection_failures_terminate_batch (records_list : List Rec) (qry : String)
    (verbose concur_req : Nat) (hne : records_list ≠ []) :
    ∃ e : PyExc,
      (call_author_many connFailTransport records_list qry verbose concur_req).result
        = .error e := by
  cases records_list with
  | nil => exact absurd rfl hne
  | cons r rest =>
    simp only [call_author_many, schedule_services, List.map_cons]
    cases hid : dget r.source "id" with
    | none =>
      refine ⟨.keyError "id", ?_⟩
      simp [schedule_loop, task_of_record, retrieve_author_details, hid, Except.map]
    | some bid =>
      refine ⟨.exception ("call author aws service: " ++ "Connection refused"), ?_⟩
      simp [schedule_loop, task_of_record, retrieve_author_details, hid, call_service,
        connFailTransport, PyExc.toStr, Except.map]

/-- C1 witness: one record whose POST raises a connection failure already
terminates the batch with an exception instead of a tally. -/
theorem C1_witness :
    ∃ e : PyExc,
      (call_author_many connFailTransport [demoRec] "mystery" DEFAULT_CONCUR_REQ
          MAX_CONCUR_REQ).result = .error e :=
  C1_connection_failures_terminate_batch [demoRec] "mystery" DEFAULT_CONCUR_REQ MAX_CONCUR_REQ
    (by simp)

/-- C2: whenever the fan-in loop of the scheduler returns a tally — for any
completion order of the submitted record tasks — the three counts sum to the
number of input records: each submitted record yields exactly one tallied
outcome. -/
theorem C2_tally_sums_to_record_count (transport : Dict → TransportResult)
    (records_list : List Rec) (qry : String) (verbose : Nat)
    (order : List (Except PyExc Result)) (tally : Counter)
    (hperm : order.Perm (records_list.map (fun item => task_of_record transport item qry verbose)))
    (hok : schedule_loop order Counter.start = .ok tally) :
    tally.ok + tally.not_found + tally.error = records_list.length := by
  have htot := schedule_loop_ok_total order Counter.start tally hok
  have hlen := hperm.length_eq
  simp only [List.length_map] at hlen
  simp [Counter.total, Counter.start] at htot
  omega

/-- C2 witness: a two-record batch under an always-succeeding transport
returns the tally (2, 0, 0), which sums to 2. -/
theorem C2_witness :
    (⟨2, 0, 0⟩ : Counter).ok + (⟨2, 0, 0⟩ : Counter).not_found + (⟨2, 0, 0⟩ : Counter).error
      = ([demoRec, demoRec2] : List Rec).length :=
  C2_tally_sums_to_record_count okTransport [demoRec, demoRec2] "mystery" DEFAULT_CONCUR_REQ
    ([demoRec, demoRec2].map
      (fun item => task_of_record okTransport item "mystery" DEFAULT_CONCUR_REQ))
    ⟨2, 0, 0⟩ (List.Perm.refl _) (by decide)

/-- C3 counterexample: the claim that author and query are set if and only if
the outcome is Ok fails on the code, because the merge is submitted to the
executor without awaiting the returned future: at the schedule where the
executor thread has not yet run (`applied = false`), a record whose task
already reported Ok still has neither field. -/
theorem C3_counterexample : ¬ C3_claim := by
  intro h
  have h2 := h okTransport demoRec "mystery" DEFAULT_CONCUR_REQ false
    ⟨HTTPStatus.ok, demoRec⟩ (some demoMerge) (by decide) (by decide) (by decide)
  have h3 := h2.mp rfl
  exact absurd h3.1 (by decide)

/-- C3 amended: a merge is scheduled if and only if the outcome is Ok; a
record with a non-Ok outcome is never changed at any executor schedule; and
the scheduled merge, once the executor runs it, sets the author field to the
response author and the query field to the query term — but nothing orders
that run before the record is reported Ok, so the fields need not be
populated when the batch completes. -/
theorem C3_amended_merge_pending (transport : Dict → TransportResult) (r : Rec) (qry : String)
    (verbose : Nat) (applied : Bool) (res : Result) (m : Option MergeAction)
    (h : retrieve_author_details transport r qry verbose = .ok (res, m)) :
    (res.status = HTTPStatus.ok ↔ m.isSome = true) ∧
    res.data = r ∧
    (res.status ≠ HTTPStatus.ok → postRunRec r m applied = r) ∧
    (∀ ma a, m = some ma → dget ma.data "author" = some a →
      ma.qry = qry ∧
      dget (postRunRec r m true).source "author" = some a ∧
      dget (postRunRec r m true).source "query" = some ma.qry ∧
      (postRunRec r m true).rest = r.rest) := by
  simp only [retrieve_author_details] at h
  cases hid : dget r.source "id" with
  | none =>
    simp only [hid] at h
    exact Except.noConfusion h
  | some bid =>
    simp only [hid] at h
    cases hcs : call_service (transport [("book_id", bid)]) "POST" with
    | ok data =>
      simp only [hcs, Except.ok.injEq, Prod.mk.injEq] at h
      obtain ⟨h1, h2⟩ := h
      subst h1
      subst h2
      refine ⟨by simp, rfl, fun hc => absurd rfl hc, ?_⟩
      intro ma a hma hauth
      have hma2 : (⟨data, qry⟩ : MergeAction) = ma := by
        injection hma
      subst hma2
      have hauth2 : dget data "author" = some a := hauth
      have hpost : postRunRec r (some ⟨data, qry⟩) true
          = { source := dset (dset r.source "author" a) "query" qry, rest := r.rest } := by
        simp [postRunRec, runMergeInExecutor, add_additional_data_to_record, hauth2]
      rw [hpost]
      refine ⟨rfl, ?_, ?_, rfl⟩
      · show dget (dset (dset r.source "author" a) "query" qry) "author" = some a
        rw [dget_dset_other _ _ _ _ (by decide), dget_dset_self]
      · show dget (dset (dset r.source "author" a) "query" qry) "query" = some qry
        rw [dget_dset_self]
    | error e =>
      simp only [hcs] at h
      cases e with
      | httpNotFound =>
        simp only [Except.ok.injEq, Prod.mk.injEq] at h
        obtain ⟨h1, h2⟩ := h
        subst h1
        subst h2
        refine ⟨by simp, rfl, fun _ => rfl, ?_⟩
        intro ma a hma hauth
        exact absurd hma (by simp)
      | exception m2 => exact Except.noConfusion h
      | clientResponseError code msg hdrs => exact Except.noConfusion h
      | fetchError id err cause => exact Except.noConfusion h
      | attributeError m2 => exact Except.noConfusion h
      | keyError k2 => exact Except.noConfusion h

/-- C3 witness: under a succeeding transport, the amended statement holds at
the demo record with the merge applied. -/
theorem C3_witness :
    ((⟨HTTPStatus.ok, demoRec⟩ : Result).status = HTTPStatus.ok ↔
      (some demoMerge).isSome = true) ∧
    (⟨HTTPStatus.ok, demoRec⟩ : Result).data = demoRec ∧
    ((⟨HTTPStatus.ok, demoRec⟩ : Result).status ≠ HTTPStatus.ok →
      postRunRec demoRec (some demoMerge) true = demoRec) ∧
    (∀ ma a, some demoMerge = some ma → dget ma.data "author" = some a →
      ma.qry = "mystery" ∧
      dget (postRunRec demoRec (some demoMerge) true).source "author" = some a ∧
      dget (postRunRec demoRec (some demoMerge) true).source "query" = some ma.qry ∧
      (postRunRec demoRec (some demoMerge) true).rest = demoRec.rest) :=
  C3_amended_merge_pending okTransport demoRec "mystery" DEFAULT_CONCUR_REQ true
    ⟨HTTPStatus.ok, demoRec⟩ (some demoMerge) (by decide)

/-- C4: the call site in `run_query_list` binds `DEFAULT_CONCUR_REQ` (5,
truthy) to `verbose` and `MAX_CONCUR_REQ` (1000) to `concur_req`, so every
batch it starts builds the semaphore with capacity 1000 and never takes the
non-verbose tqdm branch. -/
theorem C4_run_query_list_scheduler_config (transport : Dict → TransportResult)
    (list_doc : List Rec) (qry : String) :
    (call_author_many transport list_doc qry DEFAULT_CONCUR_REQ MAX_CONCUR_REQ).semCapacity
        = 1000 ∧
    (call_author_many transport list_doc qry DEFAULT_CONCUR_REQ
        MAX_CONCUR_REQ).progressBarUsed = false ∧
    DEFAULT_CONCUR_REQ = 5 :=
  ⟨rfl, rfl, rfl⟩

/-- C5 counterexample: on a transport-level connection failure the call does
not fail with a ConnectionError-classified exception: the handler re-raises
a plain `Exception` whose message embeds only the strerror text. -/
theorem C5_counterexample : ¬ C5_claim := by
  intro h
  obtain ⟨e, he, hcls⟩ := h "Connection refused"
  rw [show call_service (TransportResult.connError "Connection refused") "POST"
      = .error (.exception ("call author aws service: " ++ "Connection refused")) from rfl] at he
  injection he with he2
  subst he2
  exact absurd hcls (by decide)

/-- C5 amended: on a transport-level connection failure the call fails with
a plain `Exception` whose message is the concatenation of the fixed prefix
and the strerror of the underlying connector error; the original exception
object is not carried as a cause. -/
theorem C5_amended_plain_exception (strerror : String) :
    call_service (TransportResult.connError strerror) "POST"
      = .error (.exception ("call author aws service: " ++ strerror)) ∧
    (PyExc.exception ("call author aws service: " ++ strerror)).className = "Exception" :=
  ⟨rfl, rfl⟩

/-- C6: a delivered response with a status other than 200 makes the call
fail with `ClientResponseError` carrying exactly the status code, the reason
phrase and the headers; the body is neither parsed nor returned. -/
theorem C6_non_200_raises_response_error (status : Nat) (reason : String)
    (headers body : Dict) (h : status ≠ 200) :
    call_service (TransportResult.response status reason headers body) "POST"
      = .error (.clientResponseError status reason headers) := by
  simp [call_service, h]

/-- C6 witness: a 404 response raises `ClientResponseError(404, reason,
headers)`. -/
theorem C6_witness :
    call_service (TransportResult.response 404 "Not Found" [] [("author", "AuthorA")]) "POST"
      = .error (.clientResponseError 404 "Not Found" []) :=
  C6_non_200_raises_response_error 404 "Not Found" [] [("author", "AuthorA")] (by decide)

/-- C7 counterexample: the diagnostic extraction is not total: when the
caught error has no cause (`__cause__ = None`, which is what every plain
`raise FetchError(...)` in this codebase would produce, since no `raise ...
from` appears), the attribute access `.args` raises `AttributeError`, which
the `except IndexError` clause does not catch. -/
theorem C7_counterexample : ¬ C7_claim := by
  intro h
  obtain ⟨s, hs⟩ := (h none).1
  rw [show extract_error_msg none
      = .error (.attributeError "NoneType object has no attribute args") from rfl] at hs
  exact Except.noConfusion hs

/-- C7 amended: for a present cause the extraction is total and yields the
first structured message when one exists, else the kind name of the cause;
for an absent cause it raises `AttributeError` instead of falling back. -/
theorem C7_amended_extraction :
    (∀ c : PyCause, extract_error_msg (some c)
        = .ok (match c.args with | [] => c.className | a :: _ => a)) ∧
    extract_error_msg none
      = .error (.attributeError "NoneType object has no attribute args") := by
  constructor
  · intro c
    obtain ⟨args, cn⟩ := c
    cases args <;> rfl
  · rfl

/-- C8: the enrichment step parses the author out of the response body, sets
exactly the author and query keys of the `_source` sub-dict, and changes
nothing else: every other `_source` key and all other top-level keys keep
their values. -/
theorem C8_enrichment_frame (data : Dict) (qry : String) (book : Rec) (a : String)
    (h : dget data "author" = some a) :
    ∃ book2 : Rec,
      add_additional_data_to_record data qry book = .ok book2 ∧
      dget book2.source "author" = some a ∧
      dget book2.source "query" = some qry ∧
      (∀ k, k ≠ "author" → k ≠ "query" → dget book2.source k = dget book.source k) ∧
      book2.rest = book.rest := by
  refine ⟨{ book with source := dset (dset book.source "author" a) "query" qry },
    ?_, ?_, ?_, ?_, rfl⟩
  · simp [add_additional_data_to_record, h]
  · rw [dget_dset_other _ _ _ _ (by decide), dget_dset_self]
  · rw [dget_dset_self]
  · intro k hk1 hk2
    rw [dget_dset_other _ _ _ _ hk2, dget_dset_other _ _ _ _ hk1]

/-- C8 witness: enriching the demo record with a response body carrying
AuthorA sets both fields and leaves id, summary and the top-level score
untouched. -/
theorem C8_witness :
    ∃ book2 : Rec,
      add_additional_data_to_record [("author", "AuthorA")] "mystery" demoRec = .ok book2 ∧
      dget book2.source "author" = some "AuthorA" ∧
      dget book2.source "query" = some "mystery" ∧
      (∀ k, k ≠ "author" → k ≠ "query" → dget book2.source k = dget demoRec.source k) ∧
      book2.rest = demoRec.rest :=
  C8_enrichment_frame [("author", "AuthorA")] "mystery" demoRec "AuthorA" (by decide)

/-- C9: whenever the batch runner returns, its output has exactly one
element per query term, in input order, the element at index i being the
(possibly enriched) record list the provider yielded for the term at index
i, truncated to `size`. -/
theorem C9_output_matches_query_terms (provider : String → List Rec)
    (transport : Dict → TransportResult) (applied : String → Nat → Bool)
    (query_list : List String) (size : Nat) (out : List (List Rec))
    (h : run_query_list provider transport applied query_list size = .ok out) :
    out = query_list.map (fun qry =>
      batchPostRun transport qry DEFAULT_CONCUR_REQ (applied qry) 0
        ((provider qry).take size)) ∧
    out.length = query_list.length := by
  have hmap : out = query_list.map (fun qry =>
      batchPostRun transport qry DEFAULT_CONCUR_REQ (applied qry) 0
        ((provider qry).take size)) := by
    induction query_list generalizing out with
    | nil =>
      simp only [run_query_list, Except.ok.injEq] at h
      simp [← h]
    | cons qry rest ih =>
      simp only [run_query_list] at h
      cases hs : (call_author_many transport ((provider qry).take size) qry DEFAULT_CONCUR_REQ
          MAX_CONCUR_REQ).result with
      | error e =>
        simp only [hs] at h
        exact Except.noConfusion h
      | ok c =>
        simp only [hs] at h
        cases hrec : run_query_list provider transport applied rest size with
        | error e =>
          simp only [hrec] at h
          exact Except.noConfusion h
        | ok result =>
          simp only [hrec, Except.ok.injEq] at h
          rw [← h, List.map_cons, ih result hrec]
  exact ⟨hmap, by rw [hmap, List.length_map]⟩

/-- C9 witness: two query terms with two provider records each yield a
two-element output, each element the two (enriched) records of its term, in
input order. -/
theorem C9_witness :
    demoOut = (["mystery", "romance"]).map (fun qry =>
      batchPostRun okTransport qry DEFAULT_CONCUR_REQ (fun _ => true) 0
        ((demoProvider qry).take 2)) ∧
    demoOut.length = (["mystery", "romance"] : List String).length :=
  C9_output_matches_query_terms demoProvider okTransport (fun _ _ => true)
    ["mystery", "romance"] 2 demoOut (by decide)

/-- C10: in every reachable interleaving of a batch, at most `cap` remote
calls are in flight at once, and every task acquires its slot exactly once
for the duration of its single call and releases it exactly once on every
exit path (slot activity happens only between acquire and the one
release). -/
theorem C10_semaphore_invariant (cap n : Nat) (s : SemSys) (hreach : SemReachable cap n s) :
    inFlight s ≤ cap ∧ ∀ t ∈ s.tasks, TaskInv t :=
  ⟨(sem_reachable_invariant cap n s hreach).2.1, (sem_reachable_invariant cap n s hreach).2.2⟩

/-- C10 witness: the state of a one-task batch under capacity 1 after the
task acquired and released through the normal exit path satisfies the
invariant. -/
theorem C10_witness :
    inFlight ⟨1, [⟨Phase.done TaskExit.normal, 1, 1⟩]⟩ ≤ 1 ∧
    ∀ t ∈ ([⟨Phase.done TaskExit.normal, 1, 1⟩] : List TaskSt), TaskInv t :=
  C10_semaphore_invariant 1 1 ⟨1, [⟨Phase.done TaskExit.normal, 1, 1⟩]⟩
    (SemReachable.step
      (SemReachable.step SemReachable.start
        (SemStep.acquire ⟨1, List.replicate 1 TaskSt.start⟩ 0 (by decide) rfl (by decide)))
      (SemStep.release ⟨1, (List.replicate 1 TaskSt.start).set 0 ⟨Phase.inCall, 1, 0⟩⟩ 0
        (by decide) TaskExit.normal rfl))

end SearchEngineHelps
